import Mathlib

/-!
Shallow embedding of `spock/plugins/helpers/physics.py` (SpockBot physics
module): the per-tick motion integrator (`PhysicsPlugin.tick`,
`apply_accel`, `apply_vector`, `apply_drag`), the breadth-first minimum
translation vector search (`PhysicsPlugin.get_mtv`) and the control core
(`PhysicsCore`: `jump`, `move_target`, `move_vector`).

Machine floats are embedded as exact rationals (`ℚ`).  External
collaborators that live outside the provided source (the `Vector3` class
from `spock.vector`, the collision primitive `MTVTest.check_collision`
from `spock.plugins.tools.physics_tools`, world block lookups and the
numeric constants from `spock.mcdata.constants`) are either universally
quantified parameters or modelled from the spec, as marked on each
definition.
-/

namespace Spock

/-- Embedding of the 3-component vector used throughout the module.
Components are exact rationals standing for the Python floats. -/
structure Vector3 where
  x : ℚ
  y : ℚ
  z : ℚ
deriving DecidableEq

namespace Vector3

/-- Vector of all zero components, `Vector3()` in the source. -/
def zero : Vector3 := ⟨0, 0, 0⟩

/-- Componentwise addition, `Vector3.__add__`. -/
def add (a b : Vector3) : Vector3 := ⟨a.x + b.x, a.y + b.y, a.z + b.z⟩

/-- Componentwise subtraction, `Vector3.__sub__`. -/
def sub (a b : Vector3) : Vector3 := ⟨a.x - b.x, a.y - b.y, a.z - b.z⟩

/-- Scaling by a rational, `Vector3.__mul__` with a scalar. -/
def scale (a : Vector3) (c : ℚ) : Vector3 := ⟨a.x * c, a.y * c, a.z * c⟩

instance : Add Vector3 := ⟨Vector3.add⟩
instance : Sub Vector3 := ⟨Vector3.sub⟩

/-- Modelled from the spec: `Vector3` (external, `spock.vector`) offers a
squared-distance `dist_sq`; the natural reading is the sum of the squares
of the components. -/
def distSq (a : Vector3) : ℚ := a.x * a.x + a.y * a.y + a.z * a.z

/-- Modelled from the spec: Python truthiness of a `Vector3` (external,
`spock.vector`).  The spec treats the zero vector as the falsy sentinel
("a result where every candidate is the zero vector signals stuck"), so a
vector is truthy exactly when it is not the zero vector. -/
def truthy (a : Vector3) : Bool := decide (a ≠ Vector3.zero)

/-- Modelled from the spec: `Vector3` ordering "by magnitude" (external,
`spock.vector`), used by Python `min` in `get_mtv`. -/
def lt (a b : Vector3) : Bool := decide (a.distSq < b.distSq)

end Vector3

/-- FP_MAGIC = 1e-4, the fixed epsilon of the module, as the exact
rational 1/10000 (spelled via `mkRat` so that concrete runs reduce in
the kernel). -/
def fpMagic : ℚ := mkRat 1 10000

/-- Sanity equation: `fpMagic` is the rational number 1/10000. -/
theorem fpMagic_eq : fpMagic = 1 / 10000 := by
  norm_num [fpMagic]

/-- Unfolding equation for vector addition. -/
theorem Vector3.add_def (a b : Vector3) :
    a + b = ⟨a.x + b.x, a.y + b.y, a.z + b.z⟩ := rfl

/-- Unfolding equation for vector subtraction. -/
theorem Vector3.sub_def (a b : Vector3) :
    a - b = ⟨a.x - b.x, a.y - b.y, a.z - b.z⟩ := rfl

/-- Python `all` over a list of vectors: every element is truthy.  Note
`all([])` is `True`. -/
def pyAll (l : List Vector3) : Bool := l.all Vector3.truthy

/-- Break condition `not all(transform_vectors)` of `get_mtv`: some
returned suggestion is falsy, i.e. is the zero vector.  On the empty
list this is `false` (Python `all([]) == True`). -/
def breakTest (tv : List Vector3) : Bool := !pyAll tv

/-- Acceptance test `test_vec.dist_sq() <= self.vec.dist_sq() + FP_MAGIC`
guarding the queue append in `get_mtv`, applied to a would-be queued
candidate `d = current_vector + vector` (so `test_vec = vec + d`). -/
def capOk (vec d : Vector3) : Bool :=
  decide ((vec + d).distSq ≤ vec.distSq + fpMagic)

/-- Candidates appended to the queue when `current_vector = c` is popped
and the primitive answered `colAt c`: the loop
`for vector in transform_vectors: if cap: q.append(current_vector + vector)`. -/
def enqueueList (colAt : Vector3 → List Vector3) (vec c : Vector3) :
    List Vector3 :=
  ((colAt c).filter (fun v => capOk vec (c + v))).map (fun v => c + v)

/-- Outcome of the first `while` loop of `get_mtv`: either the `break`
was taken with the popped `current_vector` and the remaining queue, or
the loop condition went false (queue empty, last result non-empty) and
the `else:` failure branch runs. -/
inductive SearchResult where
  | found : Vector3 → List Vector3 → SearchResult
  | exhausted : SearchResult
deriving DecidableEq

/-- Fuel-indexed embedding of the first `while q or not transform_vectors`
loop of `get_mtv`.  `q` is the deque, `tv` the last value of
`transform_vectors` (initially `[]`).  `none` means the fuel ran out
before the loop finished (the Python loop would still be running). -/
def searchLoop (colAt : Vector3 → List Vector3) (vec : Vector3) :
    Nat → List Vector3 → List Vector3 → Option SearchResult
  | 0, _, _ => none
  | fuel + 1, q, tv =>
    if q.isEmpty && !tv.isEmpty then
      some .exhausted
    else
      let c := q.headD Vector3.zero
      let tv2 := colAt c
      if breakTest tv2 then
        some (.found c q.tail)
      else
        searchLoop colAt vec fuel (q.tail ++ enqueueList colAt vec c) tv2

/-- Second loop of `get_mtv`: drain the remaining queue, keeping each
candidate whose collision result again satisfies `not all(...)`. -/
def drainQueue (colAt : Vector3 → List Vector3) (q : List Vector3) :
    List Vector3 :=
  q.filter (fun c => breakTest (colAt c))

/-- Python `min` over a non-empty list `first :: rest` with the external
`Vector3` magnitude order: keep the current minimum unless a later
element is strictly smaller. -/
def pyMin (first : Vector3) (rest : List Vector3) : Vector3 :=
  rest.foldl (fun acc x => if Vector3.lt x acc then x else acc) first

/-- Embedding of `get_mtv` from the search state onward, returning the
pair (returned mtv, velocity after the call): the failure branch zeroes
`self.vec` (and logs a warning, a side effect outside the embedding) and
returns `Vector3()`; the success branch drains the queue and returns the
minimum of the collected candidates, leaving the velocity alone. -/
def getMtvAux (colAt : Vector3 → List Vector3) (vec : Vector3)
    (fuel : Nat) : Option (Vector3 × Vector3) :=
  match searchLoop colAt vec fuel [] [] with
  | none => none
  | some .exhausted => some (Vector3.zero, Vector3.zero)
  | some (.found c q) => some (pyMin c (drainQueue colAt q), vec)

/-- Embedding of `get_mtv` in full: compute the probe position
`pos = self.pos + self.vec`, with the bounding box half-extents taken
off `x` and `z`, then run the search against the collision primitive at
that fixed position.  `col` is the external
`MTVTest.check_collision(pos, offset)` primitive, universally
quantified. -/
def getMtv (col : Vector3 → Vector3 → List Vector3)
    (pos0 vec : Vector3) (bbW bbD : ℚ) (fuel : Nat) :
    Option (Vector3 × Vector3) :=
  let p := pos0 + vec
  let pos : Vector3 := ⟨p.x - bbW / 2, p.y, p.z - bbD / 2⟩
  getMtvAux (col pos) vec fuel

/-- Position object (`self.clientinfo.position`): a point with an
`on_ground` flag, as used by the module. -/
structure PosState where
  vec3 : Vector3
  on_ground : Bool
deriving DecidableEq

/-- Python errors the embedded methods can raise. -/
inductive PyError where
  | attributeError
  | zeroDivisionError
deriving DecidableEq

/-- Embedding of `PhysicsCore`.  `vecAttr` models the `self.vec`
attribute: `none` while the attribute has never been assigned.  The
constructor `PhysicsCore.__init__` receives `vec` but never binds
`self.vec`, which `vecAttr := none` records. -/
structure PhysicsCore where
  pos : PosState
  vecAttr : Option Vector3
  direction : Vector3
  move_accel : ℚ
  walking_speed : ℚ
deriving DecidableEq

namespace PhysicsCore

/-- Embedding of `PhysicsCore.__init__(self, pos, vec, abilities)`:
stores `pos`, a fresh zero `direction` and the walking speed, but does
not assign `self.vec` (the `vec` argument is dropped, as in the
source). -/
def init (pos : PosState) (vec : Vector3) (walking_speed : ℚ) :
    PhysicsCore :=
  let _ := vec
  { pos := pos
    vecAttr := none
    direction := Vector3.zero
    move_accel := walking_speed
    walking_speed := walking_speed }

/-- Embedding of `PhysicsCore.jump`.  `normO` is the external
`Vector3.norm` (modelled as fallible: `none` stands for a raised
error, e.g. normalising the zero vector); `jmpMul`, `jmpAbs` are the
external constants `PHY_JMP_MUL` and `PHY_JMP_ABS`.  Reading the never
assigned `self.vec` raises `AttributeError`. -/
def jump (normO : Vector3 → Option Vector3) (jmpMul jmpAbs : ℚ)
    (pc : PhysicsCore) : Except PyError PhysicsCore :=
  if pc.pos.on_ground then
    match pc.vecAttr with
    | none => .error .attributeError
    | some v =>
      match normO ⟨v.x, 0, v.z⟩ with
      | none => .error .zeroDivisionError
      | some hozNorm =>
        let v2 := v + hozNorm.scale jmpMul
        .ok { pc with vecAttr := some ⟨v2.x, jmpAbs, v2.z⟩ }
  else
    .ok pc

/-- Embedding of `PhysicsCore.move_target`: the caller's vector has its
`y` overwritten with the entity's current `y` in place, then the intent
becomes the mutated vector minus the position.  The mutated argument is
returned alongside the new core state. -/
def move_target (pc : PhysicsCore) (vector : Vector3) :
    PhysicsCore × Vector3 :=
  let v2 : Vector3 := ⟨vector.x, pc.pos.vec3.y, vector.z⟩
  ({ pc with direction := v2 - pc.pos.vec3 }, v2)

/-- Embedding of `PhysicsCore.move_vector`: the caller's vector has its
`y` overwritten with `0` in place, then the intent becomes that mutated
vector.  The mutated argument is returned alongside the new core
state. -/
def move_vector (pc : PhysicsCore) (vector : Vector3) :
    PhysicsCore × Vector3 :=
  let v2 : Vector3 := ⟨vector.x, 0, vector.z⟩
  ({ pc with direction := v2 }, v2)

end PhysicsCore

/-- External numeric constants from `spock.mcdata.constants`, kept as
parameters of the integrator. -/
structure PhysConsts where
  baseDrag : ℚ
  gravAcc : ℚ
  drgMul : ℚ
  baseGndSlip : ℚ
  jmpAcc : ℚ
  playerW : ℚ
  playerH : ℚ
deriving DecidableEq

/-- State owned by `PhysicsPlugin` together with the `PhysicsCore`
fields `tick` reads: velocity `vec`, position and grounded flag,
`pause_physics`, the intent `direction` and the current
acceleration. -/
structure PluginState where
  vec : Vector3
  pos : Vector3
  on_ground : Bool
  pause_physics : Bool
  direction : Vector3
  move_accel : ℚ
deriving DecidableEq

/-- Embedding of `stop_physics`: zero the velocity and pause. -/
def stopPhysics (st : PluginState) : PluginState :=
  { st with vec := Vector3.zero, pause_physics := true }

/-- Embedding of `start_physics`: unpause (the handler re-registration
is event-bus wiring outside the embedding). -/
def startPhysics (st : PluginState) : PluginState :=
  { st with pause_physics := false }

/-- Embedding of `get_block_slip`: when grounded, look the slipperiness
up under the floored position (external world lookup `slipAt`,
universally quantified); airborne returns 1. -/
def getBlockSlip (slipAt : Int → Int → Int → ℚ)
    (pos : Vector3) (on_ground : Bool) : ℚ :=
  if on_ground then
    slipAt ⌊pos.x⌋ (⌊pos.y⌋ - 1) ⌊pos.z⌋
  else 1

/-- Embedding of `apply_accel`.  The guard `if not self.pc.direction:
return` skips everything on a falsy (zero) intent; otherwise the intent
is normalised by the external `norm` (`normO`, fallible) and scaled by
the ground- or air-acceleration. -/
def applyAccel (normO : Vector3 → Option Vector3)
    (slipAt : Int → Int → Int → ℚ) (C : PhysConsts)
    (st : PluginState) : Option PluginState :=
  if !st.direction.truthy then
    some st
  else
    let accel :=
      if st.on_ground then
        let blockSlip := getBlockSlip slipAt st.pos st.on_ground
        st.move_accel * (C.baseGndSlip ^ 3 / blockSlip ^ 3)
      else C.jmpAcc
    match normO st.direction with
    | none => none
    | some n => some { st with vec := st.vec + n.scale accel }

/-- Embedding of `apply_vector`: move by `vec + mtv`, then zero each
velocity axis whose correction component is truthy (non-zero). -/
def applyVector (st : PluginState) (mtv : Vector3) : PluginState :=
  { st with
    pos := st.pos + st.vec + mtv
    vec := ⟨if mtv.x ≠ 0 then 0 else st.vec.x,
            if mtv.y ≠ 0 then 0 else st.vec.y,
            if mtv.z ≠ 0 then 0 else st.vec.z⟩ }

/-- Embedding of `apply_drag`: vertical base drag, then horizontal drag
scaled by the slipperiness under the (updated) position. -/
def applyDrag (slipAt : Int → Int → Int → ℚ) (C : PhysConsts)
    (st : PluginState) : PluginState :=
  let hozDrag := getBlockSlip slipAt st.pos st.on_ground * C.drgMul
  { st with
    vec := ⟨st.vec.x * hozDrag, st.vec.y * C.baseDrag,
            st.vec.z * hozDrag⟩ }

/-- Embedding of `PhysicsPlugin.tick`.  When paused it returns at once,
touching nothing.  Otherwise: base drag, acceleration, the MTV search
(which may zero the velocity on failure), displacement, grounded-flag
update, gravity, secondary drag, and clearing the intent.  `none`
records a raised error or a search that never terminates (fuel).  The
external `BoundingBox(PLAYER_WIDTH, PLAYER_HEIGHT)` gives the collision
box equal width and depth, so `playerW` serves for both half-extents. -/
def tick (col : Vector3 → Vector3 → List Vector3)
    (normO : Vector3 → Option Vector3)
    (slipAt : Int → Int → Int → ℚ) (C : PhysConsts) (fuel : Nat)
    (st : PluginState) : Option PluginState :=
  if st.pause_physics then
    some st
  else
    let st1 := { st with vec := st.vec.scale C.baseDrag }
    match applyAccel normO slipAt C st1 with
    | none => none
    | some st2 =>
      match getMtv col st2.pos st2.vec C.playerW C.playerW fuel with
      | none => none
      | some (mtv, vec2) =>
        let st3 := applyVector { st2 with vec := vec2 } mtv
        let st4 := { st3 with on_ground := decide (mtv.y > 0) }
        let st5 := { st4 with vec := st4.vec - ⟨0, C.gravAcc, 0⟩ }
        let st6 := applyDrag slipAt C st5
        some { st6 with direction := Vector3.zero }

/-- Iterated `tick`: `n` successive physics ticks, stopping on a raised
error / non-terminating search. -/
def tickN (col : Vector3 → Vector3 → List Vector3)
    (normO : Vector3 → Option Vector3)
    (slipAt : Int → Int → Int → ℚ) (C : PhysConsts) (fuel : Nat) :
    Nat → PluginState → Option PluginState
  | 0, st => some st
  | n + 1, st =>
    match tick col normO slipAt C fuel st with
    | none => none
    | some st2 => tickN col normO slipAt C fuel n st2

/-- C4: whenever the first search loop exits through its `else:` clause
(queue exhausted with the last collision result non-empty, no candidate
accepted), `get_mtv` fails safely: the velocity is zeroed and the zero
correction is returned; no exception escapes (the embedding returns a
defined value). -/
theorem C4_search_exhausted_fail_safe (colAt : Vector3 → List Vector3)
    (vec : Vector3) (fuel : Nat)
    (h : searchLoop colAt vec fuel [] [] = some .exhausted) :
    getMtvAux colAt vec fuel = some (Vector3.zero, Vector3.zero) := by
  simp [getMtvAux, h]

/-- Witness for C4: a primitive whose only suggestion fails the velocity
cap exhausts the queue after the first pop, and `get_mtv` returns the
zero correction with the velocity zeroed. -/
theorem C4_witness :
    searchLoop (fun _ => [(⟨10, 0, 0⟩ : Vector3)]) Vector3.zero 2 [] []
        = some .exhausted ∧
    getMtvAux (fun _ => [(⟨10, 0, 0⟩ : Vector3)]) Vector3.zero 2
        = some (Vector3.zero, Vector3.zero) :=
  ⟨by
     norm_num [searchLoop, enqueueList, capOk, breakTest, pyAll,
       Vector3.truthy, Vector3.distSq, Vector3.zero, Vector3.add_def,
       fpMagic_eq],
   C4_search_exhausted_fail_safe (fun _ => [(⟨10, 0, 0⟩ : Vector3)])
     Vector3.zero 2 (by
       norm_num [searchLoop, enqueueList, capOk, breakTest, pyAll,
         Vector3.truthy, Vector3.distSq, Vector3.zero, Vector3.add_def,
         fpMagic_eq])⟩

/-- C5: every candidate appended to the BFS queue of `get_mtv` passes
the epsilon-guarded velocity cap: all appends go through `enqueueList`,
and each of its members `d` satisfies
`|vec + d|² ≤ |vec|² + FP_MAGIC`. -/
theorem C5_queue_cap_invariant (colAt : Vector3 → List Vector3)
    (vec c d : Vector3) (h : d ∈ enqueueList colAt vec c) :
    (vec + d).distSq ≤ vec.distSq + fpMagic := by
  unfold enqueueList at h
  simp only [List.mem_map, List.mem_filter] at h
  obtain ⟨v, ⟨_, hcap⟩, rfl⟩ := h
  simpa [capOk] using hcap

/-- Witness for C5: the zero suggestion at the zero candidate is
admitted to the queue and satisfies the cap. -/
theorem C5_witness :
    Vector3.zero ∈
        enqueueList (fun _ => [Vector3.zero]) Vector3.zero Vector3.zero ∧
    (Vector3.zero + Vector3.zero).distSq ≤ Vector3.zero.distSq + fpMagic :=
  ⟨by
     norm_num [enqueueList, capOk, Vector3.distSq, Vector3.zero,
       Vector3.add_def, fpMagic_eq],
   C5_queue_cap_invariant (fun _ => [Vector3.zero]) Vector3.zero
     Vector3.zero Vector3.zero (by
       norm_num [enqueueList, capOk, Vector3.distSq, Vector3.zero,
         Vector3.add_def, fpMagic_eq])⟩

/-- Helper: against a primitive that returns the empty list at every
candidate, the first loop of `get_mtv` never finishes: `all([]) = True`
in Python, so the empty result neither breaks nor fills the queue, and
the loop re-pops the zero vector forever. -/
theorem searchLoop_const_empty (vec : Vector3) :
    ∀ n, searchLoop (fun _ => []) vec n [] [] = none := by
  intro n
  induction n with
  | zero => rfl
  | succ n ih => simpa [searchLoop, breakTest, pyAll, enqueueList] using ih

/-- C1 counterexample: with the primitive that reports no overlap (the
empty set) at every candidate, `get_mtv` does not return the zero
correction at the first pop — it returns nothing at all, for any
amount of fuel. -/
theorem C1_counterexample :
    (fun n => getMtvAux (fun _ => ([] : List Vector3)) ⟨1, 0, 0⟩ n)
      = fun _ => none := by
  funext n
  simp [getMtvAux, searchLoop_const_empty]

/-- C1 (amended): an empty collision result is not an accepted answer:
when the loop body runs and the primitive answers `[]` at the popped
candidate, no break happens — the candidate is expanded with no
children and the loop goes on (`all([]) == True`); consequently a
primitive that answers `[]` everywhere makes the loop spin forever
instead of returning the zero vector at the first pop. -/
theorem C1_empty_result_is_not_accepted (colAt : Vector3 → List Vector3)
    (vec : Vector3) (fuel : Nat) (q tv : List Vector3)
    (hrun : q = [] → tv = [])
    (he : colAt (q.headD Vector3.zero) = []) :
    searchLoop colAt vec (fuel + 1) q tv
        = searchLoop colAt vec fuel q.tail [] ∧
    (fun n => searchLoop (fun _ => ([] : List Vector3)) vec n [] [])
        = fun _ => none := by
  constructor
  · have hcond : (q.isEmpty && !tv.isEmpty) = false := by
      cases q with
      | nil => simp [hrun rfl]
      | cons a l => simp
    have he2 : colAt (q.head?.getD Vector3.zero) = [] := by
      simpa [List.headD_eq_head?] using he
    simp [searchLoop, hcond, he2, breakTest, pyAll, enqueueList]
  · funext n
    exact searchLoop_const_empty vec n

/-- Witness for C1 (amended): the first iteration on the empty queue
with the always-empty primitive steps to the same state and the loop
never returns. -/
theorem C1_witness :
    (([] : List Vector3) = [] → ([] : List Vector3) = []) ∧
    (fun _ : Vector3 => ([] : List Vector3))
        (([] : List Vector3).headD Vector3.zero) = [] ∧
    (searchLoop (fun _ => ([] : List Vector3)) Vector3.zero (0 + 1) [] []
        = searchLoop (fun _ => ([] : List Vector3)) Vector3.zero 0
            ([] : List Vector3).tail [] ∧
     (fun n => searchLoop (fun _ => ([] : List Vector3)) Vector3.zero n [] [])
        = fun _ => none) :=
  ⟨fun _ => rfl, rfl,
   C1_empty_result_is_not_accepted (fun _ => ([] : List Vector3))
     Vector3.zero 0 [] [] (fun _ => rfl) rfl⟩

/-- C3 counterexample: with a primitive that answers the singleton
zero-vector suggestion everywhere (fully boxed in), `get_mtv` does not
take the failure path: it accepts at the first pop, returns the zero
vector through the success branch and leaves the velocity `(1,0,0)`
untouched instead of zeroing it. -/
theorem C3_counterexample :
    getMtvAux (fun _ => [Vector3.zero]) ⟨1, 0, 0⟩ 1
        = some (Vector3.zero, ⟨1, 0, 0⟩) ∧
    (⟨1, 0, 0⟩ : Vector3) ≠ Vector3.zero ∧
    searchLoop (fun _ => [Vector3.zero]) ⟨1, 0, 0⟩ 1 [] []
        ≠ some SearchResult.exhausted := by
  refine ⟨?_, ?_, ?_⟩
  · norm_num [getMtvAux, searchLoop, breakTest, pyAll, Vector3.truthy,
      Vector3.zero, drainQueue, pyMin]
  · norm_num [Vector3.zero, Vector3.mk.injEq]
  · have h1 : searchLoop (fun _ => [Vector3.zero]) ⟨1, 0, 0⟩ 1 [] []
        = some (SearchResult.found Vector3.zero []) := by
      norm_num [searchLoop, breakTest, pyAll, Vector3.truthy]
    rw [h1]
    intro h
    exact SearchResult.noConfusion (Option.some.inj h)

/-- C3 (amended): a candidate whose suggestion set contains a
zero-vector entry is accepted immediately (`not all(...)` breaks the
loop), it is not a dead end to skip; with such a result at the zero
candidate the search returns the zero correction through the success
branch with the velocity unchanged, and no failure diagnostic branch
runs. -/
theorem C3_zero_suggestion_accepts_at_once (colAt : Vector3 → List Vector3)
    (vec : Vector3) (fuel : Nat)
    (hz : Vector3.zero ∈ colAt Vector3.zero) :
    searchLoop colAt vec (fuel + 1) [] []
        = some (SearchResult.found Vector3.zero []) ∧
    getMtvAux colAt vec (fuel + 1) = some (Vector3.zero, vec) := by
  have hbr : breakTest (colAt Vector3.zero) = true := by
    simp only [breakTest, pyAll, Bool.not_eq_true']
    rw [List.all_eq_false]
    exact ⟨Vector3.zero, hz, by simp [Vector3.truthy]⟩
  have h1 : searchLoop colAt vec (fuel + 1) [] []
      = some (SearchResult.found Vector3.zero []) := by
    simp [searchLoop, hbr]
  exact ⟨h1, by simp [getMtvAux, h1, drainQueue, pyMin]⟩

/-- Witness for C3 (amended): the boxed-in primitive accepts the zero
candidate at once and `get_mtv` hands back the zero correction with the
velocity `(2,0,0)` intact. -/
theorem C3_witness :
    Vector3.zero ∈ (fun _ : Vector3 => [Vector3.zero]) Vector3.zero ∧
    (searchLoop (fun _ => [Vector3.zero]) ⟨2, 0, 0⟩ (0 + 1) [] []
        = some (SearchResult.found Vector3.zero []) ∧
     getMtvAux (fun _ => [Vector3.zero]) ⟨2, 0, 0⟩ (0 + 1)
        = some (Vector3.zero, ⟨2, 0, 0⟩)) :=
  ⟨by simp,
   C3_zero_suggestion_accepts_at_once (fun _ => [Vector3.zero])
     ⟨2, 0, 0⟩ 0 (by simp)⟩

/-- C7 (code bug): on a state freshly constructed by
`PhysicsCore.__init__`, `jump()` raises `AttributeError` whenever
`on_ground` is true, because `__init__` never assigns `self.vec`; when
airborne it is a no-op.  The claim's grounded contract (boost plus fixed
vertical jump speed) is unreachable. -/
theorem C7_jump_crashes_when_grounded (pos : PosState) (vec : Vector3)
    (ws : ℚ) (normO : Vector3 → Option Vector3) (jmpMul jmpAbs : ℚ) :
    (PhysicsCore.init pos vec ws).jump normO jmpMul jmpAbs
      = if pos.on_ground then Except.error PyError.attributeError
        else Except.ok (PhysicsCore.init pos vec ws) := by
  by_cases hg : pos.on_ground <;>
    simp [PhysicsCore.jump, PhysicsCore.init, hg]

/-- C8: a falsy (zero) intent makes `apply_accel` return at once: the
state is unchanged and nothing is normalised (the theorem holds for
every external `norm`, in particular one that always fails). -/
theorem C8_zero_intent_skips_accel (normO : Vector3 → Option Vector3)
    (slipAt : Int → Int → Int → ℚ) (C : PhysConsts) (st : PluginState)
    (h : st.direction = Vector3.zero) :
    applyAccel normO slipAt C st = some st := by
  simp [applyAccel, Vector3.truthy, h]

/-- Witness for C8: a concrete resting state with zero intent passes
through `apply_accel` untouched even when the external `norm` would
fail on every input. -/
theorem C8_witness :
    ({ vec := ⟨1, 2, 3⟩, pos := ⟨0, 64, 0⟩, on_ground := true,
       pause_physics := false, direction := Vector3.zero,
       move_accel := 1 } : PluginState).direction = Vector3.zero ∧
    applyAccel (fun _ => none) (fun _ _ _ => 1) ⟨1, 1, 1, 1, 1, 1, 1⟩
        ({ vec := ⟨1, 2, 3⟩, pos := ⟨0, 64, 0⟩, on_ground := true,
           pause_physics := false, direction := Vector3.zero,
           move_accel := 1 } : PluginState)
      = some ({ vec := ⟨1, 2, 3⟩, pos := ⟨0, 64, 0⟩, on_ground := true,
                pause_physics := false, direction := Vector3.zero,
                move_accel := 1 } : PluginState) :=
  ⟨rfl,
   C8_zero_intent_skips_accel (fun _ => none) (fun _ _ _ => 1)
     ⟨1, 1, 1, 1, 1, 1, 1⟩ _ rfl⟩

/-- C9: after `stop_physics` has run, any number of `tick` calls leaves
the whole state (position, velocity, grounded flag, intent) unchanged:
the tick routine returns before touching anything while
`pause_physics` is set. -/
theorem C9_paused_ticks_leave_state (col : Vector3 → Vector3 → List Vector3)
    (normO : Vector3 → Option Vector3)
    (slipAt : Int → Int → Int → ℚ) (C : PhysConsts) (fuel : Nat)
    (n : Nat) (st : PluginState) :
    tickN col normO slipAt C fuel n (stopPhysics st)
      = some (stopPhysics st) := by
  induction n with
  | zero => rfl
  | succ n ih =>
    have hp : (stopPhysics st).pause_physics = true := rfl
    simp [tickN, tick, hp, ih]

/-- First cycle node for the C2 counterexample. -/
def pVec : Vector3 := ⟨0, 0, 1 / 100⟩

/-- Second cycle node for the C2 counterexample. -/
def qVec : Vector3 := ⟨1 / 100, 0, 0⟩

/-- Primitive for the C2 counterexample: its suggestion sets are always
non-empty and never contain a zero vector, every suggested child passes
the velocity cap (for zero velocity), and yet the search cycles between
`pVec` and `qVec` forever because the BFS keeps no visited set. -/
def colCycle : Vector3 → List Vector3 := fun c =>
  if c = Vector3.zero then [pVec]
  else if c = pVec then [qVec - pVec]
  else if c = qVec then [pVec - qVec]
  else [⟨1, 1, 1⟩]

/-- One step of the cycle: the initial state pops the zero vector and
queues `pVec`. -/
theorem colCycle_step0 (n : Nat) :
    searchLoop colCycle Vector3.zero (n + 1) [] []
      = searchLoop colCycle Vector3.zero n [pVec] [pVec] := by
  norm_num [searchLoop, colCycle, enqueueList, capOk, breakTest, pyAll,
    Vector3.truthy, Vector3.distSq, Vector3.zero, Vector3.add_def,
    Vector3.sub_def, Vector3.mk.injEq, pVec, qVec, fpMagic_eq]

/-- One step of the cycle: popping `pVec` queues `qVec`. -/
theorem colCycle_stepP (n : Nat) (tv : List Vector3) :
    searchLoop colCycle Vector3.zero (n + 1) [pVec] tv
      = searchLoop colCycle Vector3.zero n [qVec] [qVec - pVec] := by
  norm_num [searchLoop, colCycle, enqueueList, capOk, breakTest, pyAll,
    Vector3.truthy, Vector3.distSq, Vector3.zero, Vector3.add_def,
    Vector3.sub_def, Vector3.mk.injEq, pVec, qVec, fpMagic_eq]

/-- One step of the cycle: popping `qVec` queues `pVec` again. -/
theorem colCycle_stepQ (n : Nat) (tv : List Vector3) :
    searchLoop colCycle Vector3.zero (n + 1) [qVec] tv
      = searchLoop colCycle Vector3.zero n [pVec] [pVec - qVec] := by
  norm_num [searchLoop, colCycle, enqueueList, capOk, breakTest, pyAll,
    Vector3.truthy, Vector3.distSq, Vector3.zero, Vector3.add_def,
    Vector3.sub_def, Vector3.mk.injEq, pVec, qVec, fpMagic_eq]

/-- Against the cycling primitive the search never finishes, whatever
the fuel. -/
theorem colCycle_never_halts : ∀ n : Nat,
    searchLoop colCycle Vector3.zero n [] [] = none ∧
    (∀ tv, searchLoop colCycle Vector3.zero n [pVec] tv = none) ∧
    (∀ tv, searchLoop colCycle Vector3.zero n [qVec] tv = none) := by
  intro n
  induction n with
  | zero => exact ⟨rfl, fun _ => rfl, fun _ => rfl⟩
  | succ n ih =>
    refine ⟨?_, fun tv => ?_, fun tv => ?_⟩
    · rw [colCycle_step0]
      exact ih.2.1 [pVec]
    · rw [colCycle_stepP]
      exact ih.2.2 [qVec - pVec]
    · rw [colCycle_stepQ]
      exact ih.2.1 [pVec - qVec]

/-- C2 counterexample: a primitive whose every result is a non-empty
set of non-zero suggestions, all of which pass the epsilon-guarded
velocity cap, on which the MTV search still runs forever — the cap
does not bound the iteration count. -/
theorem C2_counterexample :
    (fun n => searchLoop colCycle Vector3.zero n [] [])
      = fun _ => none := by
  funext n
  exact (colCycle_never_halts n).1

/-- Bound forced on the vertical component of any candidate passing the
velocity cap: from `(vec.y + d.y)² ≤ |vec|² + ε` and `t ≤ t² + 1`. -/
def yMax (vec : Vector3) : ℚ := vec.distSq + fpMagic + 1 - vec.y

/-- Depth budget of a candidate: how many `del`-sized vertical steps fit
between its `y` and the cap-forced bound. -/
def rankOf (vec : Vector3) (del : ℚ) (d : Vector3) : Nat :=
  (⌈(yMax vec - d.y) / del⌉).toNat

/-- Termination measure of a queue: geometric weight of the depth
budgets of its entries, with branching base `k + 1`. -/
def qMeasure (vec : Vector3) (del : ℚ) (k : Nat) (q : List Vector3) :
    Nat :=
  (q.map fun d => (k + 1) ^ (rankOf vec del d + 1)).sum

/-- Progress condition on the collision primitive: results are
non-empty, have at most `k` suggestions, and every suggestion raises
the vertical component by at least `del`. -/
def ProgressPrim (colAt : Vector3 → List Vector3) (del : ℚ) (k : Nat) :
    Prop :=
  ∀ c : Vector3,
    colAt c ≠ [] ∧ (colAt c).length ≤ k ∧ ∀ v ∈ colAt c, del ≤ v.y

/-- Rational inequality feeding the vertical cap bound. -/
theorem rat_le_sq_add_one (t : ℚ) : t ≤ t * t + 1 := by
  nlinarith [sq_nonneg (t - 1)]

/-- A candidate passing the velocity cap has its vertical component
below `yMax`. -/
theorem capOk_y_le (vec d : Vector3) (h : capOk vec d = true) :
    d.y ≤ yMax vec := by
  have hle : (vec + d).distSq ≤ vec.distSq + fpMagic :=
    of_decide_eq_true h
  have h1 : (vec.y + d.y) * (vec.y + d.y) ≤ (vec + d).distSq := by
    have hx := mul_self_nonneg (vec.x + d.x)
    have hz := mul_self_nonneg (vec.z + d.z)
    simp only [Vector3.add_def, Vector3.distSq]
    linarith
  have h2 := rat_le_sq_add_one (vec.y + d.y)
  unfold yMax
  linarith

/-- A cap-passing child obtained from a suggestion that raises the
vertical component by at least `del` has a strictly smaller depth
budget. -/
theorem rankOf_child_lt (vec : Vector3) (del : ℚ) (hdel : 0 < del)
    (c v : Vector3) (hv : del ≤ v.y) (hcap : capOk vec (c + v) = true) :
    rankOf vec del (c + v) + 1 ≤ rankOf vec del c := by
  have hyle : (c + v).y ≤ yMax vec := capOk_y_le vec (c + v) hcap
  have hcy : (c + v).y = c.y + v.y := rfl
  have hBnum : (0 : ℚ) ≤ yMax vec - (c + v).y := by linarith
  have hB : (0 : ℚ) ≤ (yMax vec - (c + v).y) / del :=
    div_nonneg hBnum (le_of_lt hdel)
  have hsum : yMax vec - (c + v).y + del ≤ yMax vec - c.y := by
    rw [hcy]
    linarith
  have hAB : (yMax vec - (c + v).y) / del + 1 ≤ (yMax vec - c.y) / del := by
    have heq : (yMax vec - (c + v).y) / del + 1
        = (yMax vec - (c + v).y + del) / del := by
      field_simp
    rw [heq]
    gcongr
  have hceil : ⌈(yMax vec - (c + v).y) / del⌉ + 1
      ≤ ⌈(yMax vec - c.y) / del⌉ := by
    have := Int.ceil_le_ceil hAB
    rwa [Int.ceil_add_one] at this
  have hcnn : (0 : ℤ) ≤ ⌈(yMax vec - (c + v).y) / del⌉ := Int.ceil_nonneg hB
  unfold rankOf
  omega

/-- Popping a candidate strictly shrinks the queue measure whenever the
primitive obeys the progress condition at it. -/
theorem qMeasure_step_lt (vec : Vector3) (del : ℚ) (k : Nat)
    (colAt : Vector3 → List Vector3) (hdel : 0 < del) (c : Vector3)
    (hlen : (colAt c).length ≤ k) (hy : ∀ v ∈ colAt c, del ≤ v.y)
    (rest : List Vector3) :
    qMeasure vec del k (rest ++ enqueueList colAt vec c)
      < qMeasure vec del k (c :: rest) := by
  have hsplit : qMeasure vec del k (rest ++ enqueueList colAt vec c)
      = qMeasure vec del k rest
        + qMeasure vec del k (enqueueList colAt vec c) := by
    simp [qMeasure]
  have hcons : qMeasure vec del k (c :: rest)
      = (k + 1) ^ (rankOf vec del c + 1) + qMeasure vec del k rest := by
    simp [qMeasure]
  have hbound : ∀ w ∈ (enqueueList colAt vec c).map
      (fun d => (k + 1) ^ (rankOf vec del d + 1)),
      w ≤ (k + 1) ^ rankOf vec del c := by
    intro w hw
    simp only [List.mem_map] at hw
    obtain ⟨d, hd, rfl⟩ := hw
    unfold enqueueList at hd
    simp only [List.mem_map, List.mem_filter] at hd
    obtain ⟨v, ⟨hvmem, hvcap⟩, rfl⟩ := hd
    have hrank := rankOf_child_lt vec del hdel c v (hy v hvmem) hvcap
    exact Nat.pow_le_pow_right (Nat.succ_le_succ (Nat.zero_le k)) hrank
  have hlenE : (enqueueList colAt vec c).length ≤ k := by
    unfold enqueueList
    rw [List.length_map]
    calc ((colAt c).filter fun v => capOk vec (c + v)).length
        ≤ (colAt c).length := List.length_filter_le _ _
      _ ≤ k := hlen
  have hsumE : qMeasure vec del k (enqueueList colAt vec c)
      ≤ k * (k + 1) ^ rankOf vec del c := by
    have hle := List.sum_le_card_nsmul
      ((enqueueList colAt vec c).map
        (fun d => (k + 1) ^ (rankOf vec del d + 1)))
      ((k + 1) ^ rankOf vec del c) hbound
    simp only [List.length_map, smul_eq_mul] at hle
    calc qMeasure vec del k (enqueueList colAt vec c)
        ≤ (enqueueList colAt vec c).length * (k + 1) ^ rankOf vec del c :=
          hle
      _ ≤ k * (k + 1) ^ rankOf vec del c :=
          Nat.mul_le_mul_right _ hlenE
  have hstrict : k * (k + 1) ^ rankOf vec del c
      < (k + 1) ^ (rankOf vec del c + 1) := by
    have hpos : 0 < (k + 1) ^ rankOf vec del c :=
      Nat.pos_pow_of_pos _ (Nat.succ_pos k)
    calc k * (k + 1) ^ rankOf vec del c
        < (k + 1) * (k + 1) ^ rankOf vec del c :=
          (Nat.mul_lt_mul_right hpos).mpr (Nat.lt_succ_self k)
      _ = (k + 1) ^ (rankOf vec del c + 1) := by ring
  omega

/-- Fuel one more than the queue measure suffices for the search loop
to finish, under the progress condition. -/
theorem searchLoop_halts_aux (colAt : Vector3 → List Vector3)
    (vec : Vector3) (del : ℚ) (k : Nat) (hdel : 0 < del)
    (hprim : ProgressPrim colAt del k) :
    ∀ n q tv, tv ≠ [] → qMeasure vec del k q ≤ n →
      (searchLoop colAt vec (n + 1) q tv).isSome = true := by
  intro n
  induction n using Nat.strong_induction_on with
  | _ n ih =>
    intro q tv htv hm
    match q with
    | [] =>
      have : tv.isEmpty = false := by
        cases tv with
        | nil => exact absurd rfl htv
        | cons a l => rfl
      simp [searchLoop, this]
    | c :: rest =>
      by_cases hbr : breakTest (colAt c) = true
      · simp [searchLoop, hbr]
      · have hbr2 : breakTest (colAt c) = false :=
          Bool.of_not_eq_true hbr
        have hstep : searchLoop colAt vec (n + 1) (c :: rest) tv
            = searchLoop colAt vec n
                (rest ++ enqueueList colAt vec c) (colAt c) := by
          simp [searchLoop, hbr2]
        rw [hstep]
        have hlt : qMeasure vec del k (rest ++ enqueueList colAt vec c)
            < qMeasure vec del k (c :: rest) :=
          qMeasure_step_lt vec del k colAt hdel c (hprim c).2.1
            (hprim c).2.2 rest
        have hpos : 0 < qMeasure vec del k (c :: rest) := by
          have : 0 < (k + 1) ^ (rankOf vec del c + 1) :=
            Nat.pos_pow_of_pos _ (Nat.succ_pos k)
          simp only [qMeasure, List.map_cons, List.sum_cons]
          omega
        obtain ⟨m, rfl⟩ : ∃ m, n = m + 1 := ⟨n - 1, by omega⟩
        exact ih m (by omega) _ (colAt c) (hprim c).1 (by omega)

/-- C2 (amended): the cap alone does not bound the search (see the
counterexample), but under the progress condition — non-empty per-axis
suggestion sets of size at most `k`, each suggestion raising the
vertical component by at least a fixed `del > 0` — the cap bounds the
reachable depth and the MTV search terminates with some finite fuel. -/
theorem C2_progress_terminates (colAt : Vector3 → List Vector3)
    (vec : Vector3) (del : ℚ) (k : Nat) (hdel : 0 < del)
    (hprim : ProgressPrim colAt del k) :
    ∃ fuel, (searchLoop colAt vec fuel [] []).isSome = true := by
  by_cases hbr : breakTest (colAt Vector3.zero) = true
  · refine ⟨1, ?_⟩
    simp [searchLoop, hbr]
  · have hbr2 : breakTest (colAt Vector3.zero) = false :=
      Bool.of_not_eq_true hbr
    refine ⟨qMeasure vec del k (enqueueList colAt vec Vector3.zero) + 2,
      ?_⟩
    have hstep :
        searchLoop colAt vec
            (qMeasure vec del k (enqueueList colAt vec Vector3.zero) + 2)
            [] []
          = searchLoop colAt vec
              (qMeasure vec del k (enqueueList colAt vec Vector3.zero)
                + 1)
              (enqueueList colAt vec Vector3.zero)
              (colAt Vector3.zero) := by
      show searchLoop colAt vec
          ((qMeasure vec del k (enqueueList colAt vec Vector3.zero) + 1)
            + 1) [] [] = _
      simp [searchLoop, hbr2]
    rw [hstep]
    exact searchLoop_halts_aux colAt vec del k hdel hprim _ _
      (colAt Vector3.zero) (hprim Vector3.zero).1 (le_refl _)

/-- Witness for C2 (amended): the primitive that always suggests a unit
upward correction satisfies the progress condition with `del = 1`,
`k = 1`, and the search terminates on it. -/
theorem C2_witness :
    (0 : ℚ) < 1 ∧
    ProgressPrim (fun _ => [(⟨0, 1, 0⟩ : Vector3)]) 1 1 ∧
    ∃ fuel, (searchLoop (fun _ => [(⟨0, 1, 0⟩ : Vector3)])
      Vector3.zero fuel [] []).isSome = true :=
  ⟨by norm_num,
   by
     intro c
     refine ⟨by simp, by simp, ?_⟩
     intro v hv
     rw [List.mem_singleton] at hv
     subst hv
     norm_num,
   C2_progress_terminates (fun _ => [(⟨0, 1, 0⟩ : Vector3)])
     Vector3.zero 1 1 (by norm_num)
     (by
       intro c
       refine ⟨by simp, by simp, ?_⟩
       intro v hv
       rw [List.mem_singleton] at hv
       subst hv
       norm_num)⟩

/-- Unfolding equation: Python `min` over a singleton start. -/
theorem pyMin_nil (f : Vector3) : pyMin f [] = f := rfl

/-- Unfolding equation: one comparison step of Python `min`. -/
theorem pyMin_cons (f d : Vector3) (r : List Vector3) :
    pyMin f (d :: r) = pyMin (if Vector3.lt d f then d else f) r := rfl

/-- Python `min` never exceeds its first element in magnitude. -/
theorem pyMin_le_first (rest : List Vector3) : ∀ first : Vector3,
    (pyMin first rest).distSq ≤ first.distSq := by
  induction rest with
  | nil => intro f; exact le_refl _
  | cons d r ih =>
    intro f
    rw [pyMin_cons]
    refine le_trans (ih _) ?_
    by_cases hlt : Vector3.lt d f
    · simp only [hlt, if_true]
      simpa [Vector3.lt] using le_of_lt (of_decide_eq_true hlt)
    · simp [hlt]

/-- Python `min` returns the first element or one of the rest. -/
theorem pyMin_mem (rest : List Vector3) : ∀ first : Vector3,
    pyMin first rest = first ∨ pyMin first rest ∈ rest := by
  induction rest with
  | nil => intro f; exact Or.inl rfl
  | cons d r ih =>
    intro f
    rw [pyMin_cons]
    rcases ih (if Vector3.lt d f then d else f) with h | h
    · by_cases hlt : Vector3.lt d f
      · right
        rw [h, if_pos hlt]
        exact List.mem_cons_self _ _
      · left
        rw [h, if_neg hlt]
    · exact Or.inr (List.mem_cons_of_mem _ h)

/-- Python `min` is no larger in magnitude than any later element. -/
theorem pyMin_le_mem (rest : List Vector3) : ∀ first d : Vector3,
    d ∈ rest → (pyMin first rest).distSq ≤ d.distSq := by
  induction rest with
  | nil => intro f d hd; cases hd
  | cons a r ih =>
    intro f d hd
    rw [pyMin_cons]
    rcases List.mem_cons.mp hd with rfl | hd
    · refine le_trans (pyMin_le_first _ _) ?_
      by_cases hlt : Vector3.lt d f
      · simp [hlt]
      · simp only [hlt, if_false]
        simpa [Vector3.lt, not_lt] using of_decide_eq_false
          (Bool.of_not_eq_true hlt)
    · exact ih _ d hd

/-- Python `min` keeps the first element as the result exactly when no
later element is strictly smaller in magnitude. -/
theorem pyMin_eq_first_iff (rest : List Vector3) : ∀ first : Vector3,
    pyMin first rest = first ↔
      ∀ d ∈ rest, ¬(d.distSq < first.distSq) := by
  induction rest with
  | nil => intro f; simp [pyMin_nil]
  | cons a r ih =>
    intro f
    constructor
    · intro h d hd
      have := pyMin_le_mem (a :: r) f d hd
      rw [h] at this
      exact not_lt.mpr this
    · intro h
      have ha : Vector3.lt a f = false := by
        have := h a (List.mem_cons_self _ _)
        simpa [Vector3.lt] using this
      rw [pyMin_cons, ha, if_neg (by simp)]
      exact (ih f).mpr fun d hd => h d (List.mem_cons_of_mem _ hd)

/-- C6: when the first loop breaks with candidate `c` and remaining
queue `q`, `get_mtv` drains `q`, keeps exactly the candidates passing
the acceptance test (`drainQueue`), and returns the minimum of
`c :: drained` by magnitude; the first-found `c` is returned precisely
when no drained candidate is strictly smaller. -/
theorem C6_min_of_drained (colAt : Vector3 → List Vector3) (vec : Vector3)
    (fuel : Nat) (c : Vector3) (q : List Vector3)
    (h : searchLoop colAt vec fuel [] [] = some (SearchResult.found c q)) :
    getMtvAux colAt vec fuel
        = some (pyMin c (drainQueue colAt q), vec) ∧
    (pyMin c (drainQueue colAt q) = c ∨
      pyMin c (drainQueue colAt q) ∈ drainQueue colAt q) ∧
    (pyMin c (drainQueue colAt q)).distSq ≤ c.distSq ∧
    (∀ d ∈ drainQueue colAt q,
      (pyMin c (drainQueue colAt q)).distSq ≤ d.distSq) ∧
    (pyMin c (drainQueue colAt q) = c ↔
      ∀ d ∈ drainQueue colAt q, ¬(d.distSq < c.distSq)) :=
  ⟨by simp [getMtvAux, h], pyMin_mem _ _, pyMin_le_first _ _,
   fun d hd => pyMin_le_mem _ _ d hd, pyMin_eq_first_iff _ _⟩

/-- Witness for C6: velocity `(1,0,0)`; the primitive at the zero
candidate suggests `(-1,0,0)` and `(-2,0,0)` (both pass the cap) and a
zero vector elsewhere, so the loop breaks at `(-1,0,0)` with
`(-2,0,0)` still queued; the drain accepts it and the smaller
first-found candidate is returned. -/
theorem C6_witness :
    searchLoop
        (fun c => if c = Vector3.zero
          then [(⟨-1, 0, 0⟩ : Vector3), ⟨-2, 0, 0⟩] else [Vector3.zero])
        ⟨1, 0, 0⟩ 2 [] []
      = some (SearchResult.found ⟨-1, 0, 0⟩ [⟨-2, 0, 0⟩]) ∧
    (getMtvAux
        (fun c => if c = Vector3.zero
          then [(⟨-1, 0, 0⟩ : Vector3), ⟨-2, 0, 0⟩] else [Vector3.zero])
        ⟨1, 0, 0⟩ 2
      = some (pyMin ⟨-1, 0, 0⟩ (drainQueue
          (fun c => if c = Vector3.zero
            then [(⟨-1, 0, 0⟩ : Vector3), ⟨-2, 0, 0⟩] else [Vector3.zero])
          [⟨-2, 0, 0⟩]), ⟨1, 0, 0⟩) ∧
     (pyMin ⟨-1, 0, 0⟩ (drainQueue
          (fun c => if c = Vector3.zero
            then [(⟨-1, 0, 0⟩ : Vector3), ⟨-2, 0, 0⟩] else [Vector3.zero])
          [⟨-2, 0, 0⟩]) = ⟨-1, 0, 0⟩ ∨
      pyMin ⟨-1, 0, 0⟩ (drainQueue
          (fun c => if c = Vector3.zero
            then [(⟨-1, 0, 0⟩ : Vector3), ⟨-2, 0, 0⟩] else [Vector3.zero])
          [⟨-2, 0, 0⟩]) ∈ drainQueue
          (fun c => if c = Vector3.zero
            then [(⟨-1, 0, 0⟩ : Vector3), ⟨-2, 0, 0⟩] else [Vector3.zero])
          [⟨-2, 0, 0⟩]) ∧
     (pyMin ⟨-1, 0, 0⟩ (drainQueue
          (fun c => if c = Vector3.zero
            then [(⟨-1, 0, 0⟩ : Vector3), ⟨-2, 0, 0⟩] else [Vector3.zero])
          [⟨-2, 0, 0⟩])).distSq ≤ (⟨-1, 0, 0⟩ : Vector3).distSq ∧
     (∀ d ∈ drainQueue
          (fun c => if c = Vector3.zero
            then [(⟨-1, 0, 0⟩ : Vector3), ⟨-2, 0, 0⟩] else [Vector3.zero])
          [⟨-2, 0, 0⟩],
        (pyMin ⟨-1, 0, 0⟩ (drainQueue
          (fun c => if c = Vector3.zero
            then [(⟨-1, 0, 0⟩ : Vector3), ⟨-2, 0, 0⟩] else [Vector3.zero])
          [⟨-2, 0, 0⟩])).distSq ≤ d.distSq) ∧
     (pyMin ⟨-1, 0, 0⟩ (drainQueue
          (fun c => if c = Vector3.zero
            then [(⟨-1, 0, 0⟩ : Vector3), ⟨-2, 0, 0⟩] else [Vector3.zero])
          [⟨-2, 0, 0⟩]) = ⟨-1, 0, 0⟩ ↔
      ∀ d ∈ drainQueue
          (fun c => if c = Vector3.zero
            then [(⟨-1, 0, 0⟩ : Vector3), ⟨-2, 0, 0⟩] else [Vector3.zero])
          [⟨-2, 0, 0⟩],
        ¬(d.distSq < (⟨-1, 0, 0⟩ : Vector3).distSq))) :=
  ⟨by
     norm_num [searchLoop, enqueueList, capOk, breakTest, pyAll,
       Vector3.truthy, Vector3.distSq, Vector3.zero, Vector3.add_def,
       Vector3.mk.injEq, fpMagic_eq],
   C6_min_of_drained
     (fun c => if c = Vector3.zero
       then [(⟨-1, 0, 0⟩ : Vector3), ⟨-2, 0, 0⟩] else [Vector3.zero])
     ⟨1, 0, 0⟩ 2 ⟨-1, 0, 0⟩ [⟨-2, 0, 0⟩]
     (by
       norm_num [searchLoop, enqueueList, capOk, breakTest, pyAll,
         Vector3.truthy, Vector3.distSq, Vector3.zero, Vector3.add_def,
         Vector3.mk.injEq, fpMagic_eq])⟩

/-- C10 counterexample: with the entity at the origin and the argument
`(5, 0, 7)`, both intent setters write the argument's vertical component
back to its old value, so the caller's vector does not end with a
changed vertical component. -/
theorem C10_counterexample :
    ((PhysicsCore.init ⟨Vector3.zero, false⟩ Vector3.zero 1).move_target
        ⟨5, 0, 7⟩).2.y = (⟨5, 0, 7⟩ : Vector3).y ∧
    ((PhysicsCore.init ⟨Vector3.zero, false⟩ Vector3.zero 1).move_vector
        ⟨5, 0, 7⟩).2.y = (⟨5, 0, 7⟩ : Vector3).y := by
  exact ⟨rfl, rfl⟩

/-- C10 (amended): `move_target` overwrites the caller's argument's `y`
with the entity's current `y` before computing the intent
(`direction = mutated − pos`), and `move_vector` overwrites it with `0`
and installs the mutated vector as the intent; the written value may
coincide with the argument's previous vertical component. -/
theorem C10_intent_setters_overwrite_y (pc : PhysicsCore) (v : Vector3) :
    (pc.move_target v).2 = ⟨v.x, pc.pos.vec3.y, v.z⟩ ∧
    (pc.move_target v).1.direction
      = (⟨v.x, pc.pos.vec3.y, v.z⟩ : Vector3) - pc.pos.vec3 ∧
    (pc.move_vector v).2 = ⟨v.x, 0, v.z⟩ ∧
    (pc.move_vector v).1.direction = ⟨v.x, 0, v.z⟩ :=
  ⟨rfl, rfl, rfl, rfl⟩

end Spock
